import Mathlib

/-!
Verification development for the unnatural-planets generation pipeline.
The definitions below shallowly embed the relevant functions of
src/sources/terrainElevation.cpp and src/sources/generator.cpp:
machine floats become exact rationals or reals, fallible code returns
Except, and the global registries become lists.
-/

namespace Planets

/-- A 3D point or vector with rational coordinates (embedding of `vec3`;
floats become exact rationals). -/
abbrev Vec3q : Type := ℚ × ℚ × ℚ

/-- A 3D vector with real coordinates, used for normalized normals and
rescaled positions. -/
abbrev Vec3r : Type := ℝ × ℝ × ℝ

/-! ## Terrain elevation fields (src/sources/terrainElevation.cpp) -/

/-- Embedding of `meshElevationRatio` (terrainElevation.cpp line 275): the
fixed constant 10. -/
def meshElevationRatioQ : ℚ := 10

/-- Embedding of `elevationNone` (terrainElevation.cpp lines 17-20): the
"none" elevation mode returns the constant 100 for every input point. -/
def elevationNone : Vec3q → ℚ := fun _ => 100

/-- Embedding of `terrainSdfElevation` (terrainElevation.cpp lines 278-285):
the shape function value multiplied by the mesh elevation ratio.  The shape
function is passed explicitly, standing for the global `terrainShapeFnc`. -/
def terrainSdfElevation (shape : Vec3q → ℚ) (pos : Vec3q) : ℚ :=
  shape pos * meshElevationRatioQ

/-- Embedding of `terrainSdfElevationRaw` (terrainElevation.cpp lines
287-294): the selected raw elevation function's value. -/
def terrainSdfElevationRaw (elev : Vec3q → ℚ) (pos : Vec3q) : ℚ :=
  elev pos

/-- Embedding of `terrainSdfWater` (terrainElevation.cpp lines 308-315). -/
def terrainSdfWater (shape : Vec3q → ℚ) (pos : Vec3q) : ℚ :=
  shape pos

/-- Embedding of `terrainSdfLand` (terrainElevation.cpp lines 296-306):
`base - elev` where `base = terrainShapeFnc(pos)` and
`elev = terrainElevationFnc(pos) / meshElevationRatio`. -/
def terrainSdfLand (shape elev : Vec3q → ℚ) (pos : Vec3q) : ℚ :=
  shape pos - elev pos / meshElevationRatioQ

/-- Embedding of `terrainSdfNavigation` (terrainElevation.cpp lines 317-327):
`base - max(elev, 0)` with `elev = terrainElevationFnc(pos) /
meshElevationRatio`. -/
def terrainSdfNavigation (shape elev : Vec3q → ℚ) (pos : Vec3q) : ℚ :=
  shape pos - max (elev pos / meshElevationRatioQ) 0

/-- Formalisation of claim C2's own formula for the land field (following the
spec's words, for comparison with the code): `shape(p) - elevation(p)/ratio`
with `elevation(p) = shape(p) * elevationRatio`. -/
def specLandField (shape : Vec3q → ℚ) (pos : Vec3q) : ℚ :=
  shape pos - terrainSdfElevation shape pos / meshElevationRatioQ

/-- Formalisation of claim C2's own formula for the navigation field
(following the spec's words): `shape(p) - max(elevation(p)/ratio, 0)` with
`elevation(p) = shape(p) * elevationRatio`. -/
def specNavigationField (shape : Vec3q → ℚ) (pos : Vec3q) : ℚ :=
  shape pos - max (terrainSdfElevation shape pos / meshElevationRatioQ) 0

/-- A concrete shape function used to separate the code from claim C2's
formula: the constant 5. -/
def exShapeConst : Vec3q → ℚ := fun _ => 5

/-- A concrete raw elevation function: the constant 100 (this is exactly
`elevationNone`, written out). -/
def exElevConst : Vec3q → ℚ := fun _ => 100

/-! ## Mode registries (src/sources/terrainElevation.cpp) -/

/-- Embedding of `elevationModeNames` (terrainElevation.cpp lines 182-188). -/
def elevationModeNames : List String :=
  ["none", "simple", "legacy", "lakes", "islands"]

/-- Embedding of `shapeModeNames` (terrainElevation.cpp lines 229-249). -/
def shapeModeNames : List String :=
  ["hexagon", "square", "sphere", "torus", "tube", "disk", "capsule",
   "box", "cube", "tetrahedron", "octahedron", "knot", "mobiusstrip",
   "fibers", "h2o", "h3o", "h4o", "triangularprism", "hexagonalprism"]

/-- The selection loop shared by `chooseElevationFunction` and
`chooseShapeFunction`: scan the registry in order, remembering the index of a
matching name (the function pointer starts null; a match overwrites it). -/
def selectMode (names : List String) (n : String) : Option ℕ :=
  (List.range names.length).foldl
    (fun acc i => if n = names.getD i "" then some i else acc) none

/-- Embedding of `chooseElevationFunction` (terrainElevation.cpp lines
170-201): select the elevation evaluator by name; an unmatched name leaves
the function pointer null and throws. The result is the registry index of
the selected evaluator. -/
def chooseElevationFunction (n : String) : Except String ℕ :=
  match selectMode elevationModeNames n with
  | some i => .ok i
  | none => .error "unknown elevation mode configuration"

/-- Embedding of `chooseShapeFunction` (terrainElevation.cpp lines 203-273):
the special name "random" draws a uniformly random registry index `r` (passed
here explicitly); any other name is looked up in the registry and an
unmatched name throws. -/
def chooseShapeFunction (n : String) (r : Fin shapeModeNames.length) :
    Except String ℕ :=
  if n = "random" then .ok r.val
  else
    match selectMode shapeModeNames n with
    | some i => .ok i
    | none => .error "unknown shape mode configuration"

/-- Embedding of `terrainApplyConfig` (terrainElevation.cpp lines 329-333):
apply the shape configuration, then the elevation configuration; an error in
either aborts before any density sampling can happen. -/
def terrainApplyConfig (shapeName elevName : String)
    (r : Fin shapeModeNames.length) : Except String (ℕ × ℕ) := do
  let s ← chooseShapeFunction shapeName r
  let e ← chooseElevationFunction elevName
  pure (s, e)

/-! ## Surface generation check (src/sources/generator.cpp, genSurface) -/

/-- Embedding of the result check in `genSurface` (generator.cpp lines
146-155): after the dual-contouring collaborator returns `nv` vertices and
`nq` quads, an empty result throws "generated empty mesh". -/
def genSurface (nv nq : ℕ) : Except String Unit :=
  if nv = 0 ∨ nq = 0 then .error "generated empty mesh" else .ok ()

/-! ## Atlas UV remap (src/sources/generator.cpp, genUvs apply block) -/

/-- A source mesh vertex as used by the atlas remap: position and normal
(the uv of the source vertex is never read). -/
structure SrcVertex where
  position : Vec3q
  normal : Vec3q
deriving DecidableEq

instance : Inhabited SrcVertex := ⟨⟨default, default⟩⟩

/-- An atlas vertex as returned by the chart/pack collaborator: a
cross-reference to a source vertex and a pixel-space uv coordinate. -/
structure AtlasVertex where
  xref : ℕ
  pu : ℚ
  pv : ℚ
deriving DecidableEq

instance : Inhabited AtlasVertex := ⟨⟨0, 0, 0⟩⟩

/-- A remapped vertex: position, normal and normalized uv. -/
structure UvVertex where
  position : Vec3q
  normal : Vec3q
  u : ℚ
  v : ℚ
deriving DecidableEq

instance : Inhabited UvVertex := ⟨⟨default, default, 0, 0⟩⟩

/-- Embedding of the "apply" block of `genUvs` (generator.cpp lines 259-277):
for every atlas vertex, copy position and normal from the `xref` source
vertex and multiply the pixel uv by `whInv = 1 / (width - 1, height - 1)`
(width and height are unsigned, so the subtraction is truncated). -/
def genUvsApply (src : List SrcVertex) (width height : ℕ)
    (averts : List AtlasVertex) : List UvVertex :=
  averts.map fun a =>
    ⟨(src.getD a.xref default).position, (src.getD a.xref default).normal,
      a.pu * (1 / ((width - 1 : ℕ) : ℚ)), a.pv * (1 / ((height - 1 : ℕ) : ℚ))⟩

/-- Modelled from the spec: the xatlas chart/pack collaborator
(`xatlas::PackCharts` and the atlas it fills) is not under src/.  Per the
spec's Atlas data model — "each atlas vertex cross-references one RawMesh
vertex (`xref`) and owns a new UV in [0,1)²" together with the
`uv = pixelCoord / (atlasSize - 1)` normalization — the packed atlas has
width and height of at least 2, every `xref` indexes a source vertex, and
every pixel coordinate lies within [0, width-1) × [0, height-1). -/
def packedAtlasWF (src : List SrcVertex) (width height : ℕ)
    (averts : List AtlasVertex) : Prop :=
  2 ≤ width ∧ 2 ≤ height ∧
  ∀ a ∈ averts, a.xref < src.length ∧
    0 ≤ a.pu ∧ a.pu < ((width - 1 : ℕ) : ℚ) ∧
    0 ≤ a.pv ∧ a.pv < ((height - 1 : ℕ) : ℚ)

/-! ## Texture inpainting (src/sources/generator.cpp, inpaintProcess) -/

/-- A texel value with `c` channels (embedding of `real`, `vec2`, `vec3`,
`vec4`); the channel's all-zero value `T()` is the zero function. -/
abbrev Pix (c : ℕ) : Type := Fin c → ℚ

/-- Componentwise division of a texel value by a neighbor count
(embedding of `m / cnt`). -/
def pdiv {c : ℕ} (v : Pix c) (n : ℕ) : Pix c := fun i => v i / (n : ℚ)

/-- The clamped 3×3 neighborhood scanned by the inner loops of
`inpaintProcess` (generator.cpp lines 416-424): x runs over
[clamp(x-1,0,w-1), clamp(x+1,0,w-1)] and y over the analogous range (the
center texel itself is scanned too, but a zero value never contributes). -/
def neighborList (w h x y : ℕ) : List (ℕ × ℕ) :=
  (List.range' (min (x - 1) (w - 1))
      (min (x + 1) (w - 1) + 1 - min (x - 1) (w - 1))) ×ˢ
  (List.range' (min (y - 1) (h - 1))
      (min (y + 1) (h - 1) + 1 - min (y - 1) (h - 1)))

/-- Embedding of the per-texel body of `inpaintProcess` (generator.cpp lines
411-437): a texel equal to the all-zero value becomes the sum of the
non-zero values in its clamped neighborhood divided by their count when that
count is positive, and stays at the zero the destination image was created
with otherwise; a non-zero texel is copied. -/
def inpaintPixel {c : ℕ} (src : ℕ → ℕ → Pix c) (w h x y : ℕ) : Pix c :=
  if src x y = 0 then
    if 0 < ((neighborList w h x y).filter
        fun q => decide (src q.1 q.2 ≠ 0)).length then
      pdiv
        (((neighborList w h x y).filter
            fun q => decide (src q.1 q.2 ≠ 0)).map fun q => src q.1 q.2).sum
        ((neighborList w h x y).filter
            fun q => decide (src q.1 q.2 ≠ 0)).length
    else 0
  else src x y

/-- Embedding of one full pass of `inpaintProcess` over a w×h image
(generator.cpp lines 402-440); texels outside the image stay at zero. -/
def inpaintProcess {c : ℕ} (src : ℕ → ℕ → Pix c) (w h : ℕ) :
    ℕ → ℕ → Pix c :=
  fun x y => if x < w ∧ y < h then inpaintPixel src w h x y else 0

/-- The up-to-8 neighboring texels of (x,y): in-range texels other than
(x,y) itself whose coordinates differ from (x,y) by at most one, clamped at
the image borders. -/
def nbhd (w h x y : ℕ) : Finset (ℕ × ℕ) :=
  (Finset.range w ×ˢ Finset.range h).filter fun p =>
    p ≠ (x, y) ∧ x - 1 ≤ p.1 ∧ p.1 ≤ x + 1 ∧ y - 1 ≤ p.2 ∧ p.2 ≤ y + 1

/-- The neighboring texels of (x,y) holding a non-zero value. -/
def nzNbhd {c : ℕ} (src : ℕ → ℕ → Pix c) (w h x y : ℕ) :
    Finset (ℕ × ℕ) :=
  (nbhd w h x y).filter fun p => src p.1 p.2 ≠ 0

/-- The all-zero 1-channel image, used to instantiate the inpainting
theorems. -/
def exZeroImg : ℕ → ℕ → Pix 1 := fun _ _ => 0

/-! ## Triangulation and scale (src/sources/generator.cpp, genTriangles and
computeScale) -/

/-- Componentwise addition of real vectors (embedding of `vec3 +`). -/
def vaddR (a b : Vec3r) : Vec3r := (a.1 + b.1, a.2.1 + b.2.1, a.2.2 + b.2.2)

/-- The zero vector, the initial value of every accumulated normal. -/
def zeroR : Vec3r := ((0 : ℝ), (0 : ℝ), (0 : ℝ))

/-- Scalar multiple of a real vector (embedding of `real * vec3`). -/
def rsmul (s : ℝ) (v : Vec3r) : Vec3r := (s * v.1, s * v.2.1, s * v.2.2)

/-- Sum of a list of real vectors. -/
def vsumR (l : List Vec3r) : Vec3r := l.foldr vaddR zeroR

/-- Inclusion of rational coordinates into the reals. -/
def castR (v : Vec3q) : Vec3r := ((v.1 : ℝ), (v.2.1 : ℝ), (v.2.2 : ℝ))

/-- Componentwise subtraction (embedding of `vec3 -`). -/
def vsubQ (a b : Vec3q) : Vec3q :=
  (a.1 - b.1, a.2.1 - b.2.1, a.2.2 - b.2.2)

/-- Embedding of `cross` from the cage geometry library:
`cross(a,b) = (a.y*b.z - a.z*b.y, a.z*b.x - a.x*b.z, a.x*b.y - a.y*b.x)`. -/
def cross3 (a b : Vec3q) : Vec3q :=
  (a.2.1 * b.2.2 - a.2.2 * b.2.1, a.2.2 * b.1 - a.1 * b.2.2,
    a.1 * b.2.1 - a.2.1 * b.1)

/-- Embedding of `distanceSquared` from the cage geometry library. -/
def distanceSquared (a b : Vec3q) : ℚ :=
  (a.1 - b.1) ^ 2 + (a.2.1 - b.2.1) ^ 2 + (a.2.2 - b.2.2) ^ 2

/-- The Euclidean distance of two rational points (embedding of
`distance`). -/
noncomputable def dist3 (a b : Vec3q) : ℝ :=
  Real.sqrt ((distanceSquared a b : ℚ) : ℝ)

/-- Squared Euclidean distance over the reals, for rescaled meshes. -/
def distanceSquaredR (a b : Vec3r) : ℝ :=
  (a.1 - b.1) ^ 2 + (a.2.1 - b.2.1) ^ 2 + (a.2.2 - b.2.2) ^ 2

/-- Euclidean distance over the reals, for rescaled meshes. -/
noncomputable def distR (a b : Vec3r) : ℝ := Real.sqrt (distanceSquaredR a b)

/-- Embedding of `normalize` from the cage geometry library applied to a
rational vector: the vector divided by its Euclidean length. -/
noncomputable def normalizeQ (v : Vec3q) : Vec3r :=
  rsmul (Real.sqrt ((v.1 ^ 2 + v.2.1 ^ 2 + v.2.2 ^ 2 : ℚ) : ℝ))⁻¹ (castR v)

/-- `normalize` applied to an already accumulated real vector. -/
noncomputable def normalizeR (v : Vec3r) : Vec3r :=
  rsmul (Real.sqrt (v.1 ^ 2 + v.2.1 ^ 2 + v.2.2 ^ 2))⁻¹ v

/-- A quad emitted by the dual-contouring collaborator (`dualmc::Quad`),
holding four vertex indices. -/
structure Quad where
  i0 : ℕ
  i1 : ℕ
  i2 : ℕ
  i3 : ℕ
deriving DecidableEq

/-- `meshVertices[i].position`: list lookup with the zero default. -/
def posQ (vs : List Vec3q) (i : ℕ) : Vec3q := vs.getD i default

/-- Embedding of the quad triangulation step of `genTriangles`
(generator.cpp lines 170-179): compare the squared diagonals and push the
`first` index pattern {0,1,2, 0,2,3} when diagonal 0-2 is strictly shorter,
the `second` pattern {1,2,3, 1,3,0} otherwise. -/
def genQuadSplit (vs : List Vec3q) (q : Quad) : List ℕ :=
  if distanceSquared (posQ vs q.i0) (posQ vs q.i2) <
      distanceSquared (posQ vs q.i1) (posQ vs q.i3) then
    [q.i0, q.i1, q.i2, q.i0, q.i2, q.i3]
  else
    [q.i1, q.i2, q.i3, q.i1, q.i3, q.i0]

/-- The full triangle index stream produced by `genTriangles` from the quad
list. -/
def genTrianglesIndices (vs : List Vec3q) (qs : List Quad) : List ℕ :=
  qs.flatMap (genQuadSplit vs)

/-- Embedding of the per-quad normal of `genTriangles` (generator.cpp lines
180-186): `normalize(cross(b - a, c - a))` of the quad's vertices 0, 1, 2,
computed once per quad whatever the chosen split. -/
noncomputable def quadNormal (vs : List Vec3q) (q : Quad) : Vec3r :=
  normalizeQ (cross3 (vsubQ (posQ vs q.i1) (posQ vs q.i0))
    (vsubQ (posQ vs q.i2) (posQ vs q.i0)))

/-- The four indices of a quad in loop order (`is` in the source). -/
def quadIndexList (q : Quad) : List ℕ := [q.i0, q.i1, q.i2, q.i3]

/-- One `meshVertices[i].normal += n` update. -/
def addNormal (n : Vec3r) (i : ℕ) (f : ℕ → Vec3r) : ℕ → Vec3r :=
  fun j => if j = i then vaddR (f j) n else f j

/-- Embedding of the normal accumulation loops of `genTriangles`
(generator.cpp lines 187-189): normals start at zero, and every quad adds
its normal to the normals of its four vertices. -/
noncomputable def genAccumNormals (vs : List Vec3q) (qs : List Quad) :
    ℕ → Vec3r :=
  qs.foldl
    (fun f q => (quadIndexList q).foldl
      (fun g i => addNormal (quadNormal vs q) i g) f)
    (fun _ => zeroR)

/-- Embedding of the final normalization of `genTriangles` (generator.cpp
lines 190-191): the vertex normal is the normalized accumulated normal. -/
noncomputable def genVertexNormal (vs : List Vec3q) (qs : List Quad)
    (v : ℕ) : Vec3r :=
  normalizeR (genAccumNormals vs qs v)

/-- The declarative value of the accumulated normal of vertex `v`: the sum
over all quads of the quad's normal weighted by the number of occurrences of
`v` among the quad's four indices. -/
noncomputable def quadNormalSum (vs : List Vec3q) (qs : List Quad)
    (v : ℕ) : Vec3r :=
  vsumR (qs.map fun q =>
    rsmul (((quadIndexList q).count v : ℕ) : ℝ) (quadNormal vs q))

/-- Group a flat index stream into consecutive triangles. -/
def triangleList : List ℕ → List (ℕ × ℕ × ℕ)
  | a :: b :: c :: rest => (a, b, c) :: triangleList rest
  | _ => []

/-- Formalisation of claim C9's face normal (following the spec's words):
`normalize(cross(edge1, edge2))` of a triangle, edges taken from the
triangle's first vertex. -/
noncomputable def specFaceNormal (vs : List Vec3q) (t : ℕ × ℕ × ℕ) : Vec3r :=
  normalizeQ (cross3 (vsubQ (posQ vs t.2.1) (posQ vs t.1))
    (vsubQ (posQ vs t.2.2) (posQ vs t.1)))

/-- Formalisation of claim C9's vertex normal (following the spec's words):
the normalization of the sum of the face normals of exactly the emitted
triangles adjacent to the vertex. -/
noncomputable def specVertexNormal (vs : List Vec3q) (qs : List Quad)
    (v : ℕ) : Vec3r :=
  normalizeR (vsumR
    (((triangleList (genTrianglesIndices vs qs)).filter
        fun t => decide (v = t.1 ∨ v = t.2.1 ∨ v = t.2.2)).map
      (specFaceNormal vs)))

/-- The vertex positions of the counterexample mesh: a single non-planar
quad. -/
def exVs : List Vec3q :=
  [((0 : ℚ), (0 : ℚ), (0 : ℚ)), ((1 : ℚ), (0 : ℚ), (0 : ℚ)),
   ((1 : ℚ), (1 : ℚ), (0 : ℚ)), ((0 : ℚ), (1 : ℚ), (1 : ℚ))]

/-- The quad list of the counterexample mesh. -/
def exQs : List Quad := [⟨0, 1, 2, 3⟩]

/-- The triangulated mesh entering `computeScale`: vertex positions and the
flat triangle index stream. -/
structure Mesh where
  vertices : List Vec3q
  indices : List ℕ

/-- A mesh with real coordinates, as produced by rescaling. -/
structure MeshR where
  vertices : List Vec3r
  indices : List ℕ

/-- `tc = meshIndices.size() / 3` (generator.cpp line 199). -/
def triangleCount (m : Mesh) : ℕ := m.indices.length / 3

/-- The length of edge `e` of triangle `t` (generator.cpp lines 202-208). -/
noncomputable def edgeLen (m : Mesh) (t e : ℕ) : ℝ :=
  dist3 (posQ m.vertices (m.indices.getD (t * 3 + e) 0))
    (posQ m.vertices (m.indices.getD (t * 3 + (e + 1) % 3) 0))

/-- The accumulated `sum` of `computeScale` (generator.cpp lines 198-210):
the total length of the three edges of every triangle. -/
noncomputable def totalEdgeLen (m : Mesh) : ℝ :=
  ∑ t ∈ Finset.range (triangleCount m), ∑ e ∈ Finset.range 3, edgeLen m t e

/-- Embedding of `planetScale = tc * 3 / sum` (generator.cpp line 211). -/
noncomputable def planetScale (m : Mesh) : ℝ :=
  (triangleCount m * 3 : ℝ) / totalEdgeLen m

/-- The mean edge length over all triangle edges of a mesh. -/
noncomputable def meanEdgeLen (m : Mesh) : ℝ :=
  totalEdgeLen m / (triangleCount m * 3 : ℝ)

/-- Embedding of the rescaling loop of `computeScale` (generator.cpp lines
213-214): every vertex position is multiplied by `planetScale`. -/
noncomputable def computeScale (m : Mesh) : MeshR :=
  ⟨m.vertices.map fun v => rsmul (planetScale m) (castR v), m.indices⟩

/-- List lookup of a real vertex position with the zero default. -/
def posR (vs : List Vec3r) (i : ℕ) : Vec3r := vs.getD i zeroR

/-- Triangle count of a real mesh. -/
def triangleCountR (m : MeshR) : ℕ := m.indices.length / 3

/-- Edge length in a real mesh. -/
noncomputable def edgeLenR (m : MeshR) (t e : ℕ) : ℝ :=
  distR (posR m.vertices (m.indices.getD (t * 3 + e) 0))
    (posR m.vertices (m.indices.getD (t * 3 + (e + 1) % 3) 0))

/-- Total edge length of a real mesh. -/
noncomputable def totalEdgeLenR (m : MeshR) : ℝ :=
  ∑ t ∈ Finset.range (triangleCountR m), ∑ e ∈ Finset.range 3, edgeLenR m t e

/-- Mean edge length of a real mesh. -/
noncomputable def meanEdgeLenR (m : MeshR) : ℝ :=
  totalEdgeLenR m / (triangleCountR m * 3 : ℝ)

/-- The mesh used to instantiate the scale-normalization theorem: one
degenerate triangle with edge lengths 2, 0 and 2. -/
def exMesh : Mesh :=
  ⟨[((0 : ℚ), (0 : ℚ), (0 : ℚ)), ((2 : ℚ), (0 : ℚ), (0 : ℚ))], [0, 1, 1]⟩

theorem neighborList_nodup (w h x y : ℕ) : (neighborList w h x y).Nodup :=
  (List.nodup_range' _ _).product (List.nodup_range' _ _)

theorem mem_neighborList (w h x y a b : ℕ) (hx : x < w) (hy : y < h) :
    (a, b) ∈ neighborList w h x y ↔
      a < w ∧ b < h ∧ x - 1 ≤ a ∧ a ≤ x + 1 ∧ y - 1 ≤ b ∧ b ≤ y + 1 := by
  unfold neighborList
  rw [List.mem_product, List.mem_range'_1, List.mem_range'_1]
  omega

theorem neighborList_toFinset (w h x y : ℕ) (hx : x < w) (hy : y < h) :
    (neighborList w h x y).toFinset =
      (Finset.range w ×ˢ Finset.range h).filter fun p =>
        x - 1 ≤ p.1 ∧ p.1 ≤ x + 1 ∧ y - 1 ≤ p.2 ∧ p.2 ≤ y + 1 := by
  ext ⟨a, b⟩
  rw [List.mem_toFinset, mem_neighborList w h x y a b hx hy]
  simp only [Finset.mem_filter, Finset.mem_product, Finset.mem_range]
  tauto

/-! ## Helper lemmas for the selection fold -/

theorem foldl_select_none (names : List String) (n : String) (l : List ℕ)
    (h : ∀ i ∈ l, n ≠ names.getD i "") :
    l.foldl (fun acc i => if n = names.getD i "" then some i else acc)
      none = none := by
  induction l with
  | nil => rfl
  | cons a t ih =>
      rw [List.foldl_cons, if_neg (h a (List.mem_cons_self a t))]
      exact ih (fun i hi => h i (List.mem_cons_of_mem a hi))

theorem selectMode_not_mem (names : List String) (n : String)
    (h : n ∉ names) : selectMode names n = none := by
  apply foldl_select_none
  intro i hi heq
  rw [List.mem_range] at hi
  apply h
  rw [heq, List.getD_eq_getElem names "" hi]
  exact List.getElem_mem hi

/-! ## Theorems for the claims settled so far -/

/-- C2 counterexample: with the constant shape 5 and the constant raw
elevation 100 (the "none" mode), the land field of the code differs from the
claim's formula `shape(p) - (shape(p)*elevationRatio)/ratio` (the code gives
-5, the claim's formula gives 0), and likewise for the navigation field. -/
theorem c2_counterexample :
    terrainSdfLand exShapeConst exElevConst ((0 : ℚ), (0 : ℚ), (0 : ℚ)) ≠
      specLandField exShapeConst ((0 : ℚ), (0 : ℚ), (0 : ℚ)) ∧
    terrainSdfNavigation exShapeConst exElevConst
        ((0 : ℚ), (0 : ℚ), (0 : ℚ)) ≠
      specNavigationField exShapeConst ((0 : ℚ), (0 : ℚ), (0 : ℚ)) := by
  constructor <;>
    · simp only [terrainSdfLand, terrainSdfNavigation, specLandField,
        specNavigationField, terrainSdfElevation, exShapeConst, exElevConst,
        meshElevationRatioQ]
      norm_num

/-- C2 amended: for every point, the land field returns
`shape(p) - elevationRaw(p)/ratio` and the navigation field returns
`shape(p) - max(elevationRaw(p)/ratio, 0)`, where `elevationRaw` is the
selected raw elevation function and ratio is the fixed mesh elevation ratio
10; the product `shape(p)*elevationRatio` is the separate elevation field
(`terrainSdfElevation`), not an input of land or navigation. -/
theorem c2_land_navigation_fields (shape elev : Vec3q → ℚ) (p : Vec3q) :
    terrainSdfLand shape elev p =
      terrainSdfWater shape p -
        terrainSdfElevationRaw elev p / meshElevationRatioQ ∧
    terrainSdfNavigation shape elev p =
      terrainSdfWater shape p -
        max (terrainSdfElevationRaw elev p / meshElevationRatioQ) 0 ∧
    terrainSdfElevation shape p =
      terrainSdfWater shape p * meshElevationRatioQ := by
  exact ⟨rfl, rfl, rfl⟩

/-- C10: with elevation mode "none" the raw elevation function returns the
constant 100 (not 0) at every point, so the land field equals
`shape(p) - 100/ratio = shape(p) - 10` and never equals the bare shape. -/
theorem c10_elevation_none (shape : Vec3q → ℚ) (p : Vec3q) :
    elevationNone p = 100 ∧
    elevationNone p ≠ 0 ∧
    terrainSdfLand shape elevationNone p =
      shape p - 100 / meshElevationRatioQ ∧
    terrainSdfLand shape elevationNone p = shape p - 10 ∧
    terrainSdfLand shape elevationNone p ≠ terrainSdfWater shape p := by
  refine ⟨rfl, by norm_num [elevationNone], rfl, ?_, ?_⟩
  · show shape p - 100 / meshElevationRatioQ = shape p - 10
    norm_num [meshElevationRatioQ]
  · show shape p - 100 / meshElevationRatioQ ≠ shape p
    intro h
    have : (100 : ℚ) / meshElevationRatioQ = 0 := by linarith
    norm_num [meshElevationRatioQ] at this

/-- C6: for a well-formed packed atlas, every remapped atlas vertex has its
position and normal copied from its `xref` source vertex, its uv equal to its
pixel coordinate divided componentwise by (width - 1, height - 1), and that
uv lies within [0,1)². -/
theorem c6_atlas_remap (src : List SrcVertex) (width height : ℕ)
    (averts : List AtlasVertex)
    (hwf : packedAtlasWF src width height averts) :
    ∀ i, i < averts.length →
      ((genUvsApply src width height averts).getD i default).position =
        (src.getD (averts.getD i default).xref default).position ∧
      ((genUvsApply src width height averts).getD i default).normal =
        (src.getD (averts.getD i default).xref default).normal ∧
      ((genUvsApply src width height averts).getD i default).u =
        (averts.getD i default).pu / ((width - 1 : ℕ) : ℚ) ∧
      ((genUvsApply src width height averts).getD i default).v =
        (averts.getD i default).pv / ((height - 1 : ℕ) : ℚ) ∧
      0 ≤ ((genUvsApply src width height averts).getD i default).u ∧
      ((genUvsApply src width height averts).getD i default).u < 1 ∧
      0 ≤ ((genUvsApply src width height averts).getD i default).v ∧
      ((genUvsApply src width height averts).getD i default).v < 1 := by
  intro i hi
  obtain ⟨hw, hh, hv⟩ := hwf
  have hmem : averts.getD i default ∈ averts := by
    rw [List.getD_eq_getElem averts default hi]
    exact List.getElem_mem hi
  obtain ⟨hxref, hpu0, hpuw, hpv0, hpvh⟩ := hv _ hmem
  have hgd : (genUvsApply src width height averts).getD i default =
      ⟨(src.getD (averts.getD i default).xref default).position,
        (src.getD (averts.getD i default).xref default).normal,
        (averts.getD i default).pu * (1 / ((width - 1 : ℕ) : ℚ)),
        (averts.getD i default).pv * (1 / ((height - 1 : ℕ) : ℚ))⟩ := by
    unfold genUvsApply
    rw [List.getD_eq_getElem _ default (by simpa using hi), List.getElem_map,
      List.getD_eq_getElem averts default hi]
  have hwpos : (0 : ℚ) < ((width - 1 : ℕ) : ℚ) := by
    have : 1 ≤ width - 1 := by omega
    exact_mod_cast Nat.lt_of_lt_of_le Nat.zero_lt_one this
  have hhpos : (0 : ℚ) < ((height - 1 : ℕ) : ℚ) := by
    have : 1 ≤ height - 1 := by omega
    exact_mod_cast Nat.lt_of_lt_of_le Nat.zero_lt_one this
  rw [hgd]
  refine ⟨rfl, rfl, mul_one_div _ _, mul_one_div _ _, ?_, ?_, ?_, ?_⟩
  · exact mul_nonneg hpu0 (by positivity)
  · show (averts.getD i default).pu * (1 / ((width - 1 : ℕ) : ℚ)) < 1
    rw [mul_one_div]
    exact (div_lt_one hwpos).mpr hpuw
  · exact mul_nonneg hpv0 (by positivity)
  · show (averts.getD i default).pv * (1 / ((height - 1 : ℕ) : ℚ)) < 1
    rw [mul_one_div]
    exact (div_lt_one hhpos).mpr hpvh

/-- C6 witness: a single source vertex and a single atlas vertex with pixel
uv (0,1) in a 3×3 atlas satisfy the well-formedness of the packed atlas, and
the remap copies position and normal and yields uv (0, 1/2) ∈ [0,1)². -/
theorem c6_atlas_remap_witness :
    packedAtlasWF [⟨((1 : ℚ), (2 : ℚ), (3 : ℚ)), ((0 : ℚ), (0 : ℚ), (1 : ℚ))⟩]
      3 3 [⟨0, 0, 1⟩] ∧
    (((genUvsApply
        [⟨((1 : ℚ), (2 : ℚ), (3 : ℚ)), ((0 : ℚ), (0 : ℚ), (1 : ℚ))⟩]
        3 3 [⟨0, 0, 1⟩]).getD 0 default).position =
      (([⟨((1 : ℚ), (2 : ℚ), (3 : ℚ)), ((0 : ℚ), (0 : ℚ), (1 : ℚ))⟩] :
        List SrcVertex).getD
          (([⟨0, 0, 1⟩] : List AtlasVertex).getD 0 default).xref
          default).position ∧
      0 ≤ (((genUvsApply
        [⟨((1 : ℚ), (2 : ℚ), (3 : ℚ)), ((0 : ℚ), (0 : ℚ), (1 : ℚ))⟩]
        3 3 [⟨0, 0, 1⟩]).getD 0 default).v) ∧
      (((genUvsApply
        [⟨((1 : ℚ), (2 : ℚ), (3 : ℚ)), ((0 : ℚ), (0 : ℚ), (1 : ℚ))⟩]
        3 3 [⟨0, 0, 1⟩]).getD 0 default).v) < 1) := by
  have hwf : packedAtlasWF
      [⟨((1 : ℚ), (2 : ℚ), (3 : ℚ)), ((0 : ℚ), (0 : ℚ), (1 : ℚ))⟩]
      3 3 [⟨0, 0, 1⟩] := by
    refine ⟨by norm_num, by norm_num, ?_⟩
    intro a ha
    rw [List.mem_singleton] at ha
    subst ha
    norm_num
  have h := c6_atlas_remap _ 3 3 _ hwf 0 (by norm_num)
  exact ⟨hwf, h.1, h.2.2.2.2.2.2.1, h.2.2.2.2.2.2.2⟩

theorem nzNbhd_eq_list (c : ℕ) (src : ℕ → ℕ → Pix c) (w h x y : ℕ)
    (hx : x < w) (hy : y < h) (h0 : src x y = 0) :
    ((neighborList w h x y).filter
        fun q => decide (src q.1 q.2 ≠ 0)).toFinset =
      nzNbhd src w h x y := by
  rw [List.toFinset_filter, neighborList_toFinset w h x y hx hy]
  ext ⟨a, b⟩
  simp only [Finset.mem_filter, Finset.mem_product, Finset.mem_range,
    nzNbhd, nbhd, decide_eq_true_eq]
  constructor
  · rintro ⟨⟨⟨ha, hb⟩, hbox⟩, hnz⟩
    refine ⟨⟨⟨ha, hb⟩, ?_, hbox⟩, hnz⟩
    intro he
    obtain ⟨h1, h2⟩ := Prod.mk.injEq a b x y ▸ he
    subst h1
    subst h2
    exact hnz h0
  · rintro ⟨⟨hab, _, hbox⟩, hnz⟩
    exact ⟨⟨hab, hbox⟩, hnz⟩

/-- C7: one inpainting pass copies every non-zero texel unchanged, and maps
every all-zero texel to the arithmetic mean of the non-zero values among its
up-to-8 neighboring texels (clamped at the image borders), or leaves it zero
when all its neighbors are zero. -/
theorem c7_inpaint_pass (c : ℕ) (src : ℕ → ℕ → Pix c) (w h x y : ℕ)
    (hx : x < w) (hy : y < h) :
    (src x y ≠ 0 → inpaintProcess src w h x y = src x y) ∧
    (src x y = 0 →
      (0 < (nzNbhd src w h x y).card →
        inpaintProcess src w h x y =
          pdiv (∑ p ∈ nzNbhd src w h x y, src p.1 p.2)
            (nzNbhd src w h x y).card) ∧
      ((nzNbhd src w h x y).card = 0 →
        inpaintProcess src w h x y = 0)) := by
  constructor
  · intro hne
    simp only [inpaintProcess, inpaintPixel]
    rw [if_pos (⟨hx, hy⟩ : x < w ∧ y < h), if_neg hne]
  · intro h0
    have hnzd : ((neighborList w h x y).filter
        fun q => decide (src q.1 q.2 ≠ 0)).Nodup :=
      (neighborList_nodup w h x y).filter _
    have htf := nzNbhd_eq_list c src w h x y hx hy h0
    have hlen : (nzNbhd src w h x y).card =
        ((neighborList w h x y).filter
          fun q => decide (src q.1 q.2 ≠ 0)).length := by
      rw [← htf]
      exact List.toFinset_card_of_nodup hnzd
    have hsum : ∑ p ∈ nzNbhd src w h x y, src p.1 p.2 =
        (((neighborList w h x y).filter
            fun q => decide (src q.1 q.2 ≠ 0)).map
          fun q => src q.1 q.2).sum := by
      rw [← htf]
      exact List.sum_toFinset _ hnzd
    constructor
    · intro hcard
      simp only [inpaintProcess, inpaintPixel]
      rw [if_pos (⟨hx, hy⟩ : x < w ∧ y < h), if_pos h0,
        if_pos (hlen ▸ hcard), hsum, hlen]
    · intro hcard0
      simp only [inpaintProcess, inpaintPixel]
      rw [if_pos (⟨hx, hy⟩ : x < w ∧ y < h), if_pos h0, if_neg]
      omega

/-- C7 witness: in a 1×1 all-zero image the single texel is zero, has no
neighbors at all (so no non-zero neighbor), and one pass leaves it zero. -/
theorem c7_inpaint_pass_witness :
    (0 : ℕ) < 1 ∧ exZeroImg 0 0 = 0 ∧
    (nzNbhd exZeroImg 1 1 0 0).card = 0 ∧
    inpaintProcess exZeroImg 1 1 0 0 = 0 :=
  ⟨Nat.zero_lt_one, rfl, by decide,
    ((c7_inpaint_pass 1 exZeroImg 1 1 0 0 Nat.zero_lt_one
      Nat.zero_lt_one).2 rfl).2 (by decide)⟩

/-- C8: if no zero-valued texel of the image has a non-zero texel within its
clamped 3×3 neighborhood (in particular if the image has no zero texels),
one inpainting pass returns every in-range texel unchanged. -/
theorem c8_inpaint_idempotent (c : ℕ) (src : ℕ → ℕ → Pix c) (w h : ℕ)
    (hiso : ∀ x y, x < w → y < h → src x y = 0 →
      ∀ a b, a < w → b < h → x - 1 ≤ a → a ≤ x + 1 → y - 1 ≤ b →
        b ≤ y + 1 → src a b = 0) :
    ∀ x y, x < w → y < h → inpaintProcess src w h x y = src x y := by
  intro x y hx hy
  by_cases h0 : src x y = 0
  · have hempty : (neighborList w h x y).filter
        (fun q => decide (src q.1 q.2 ≠ 0)) = [] := by
      rw [List.filter_eq_nil_iff]
      rintro ⟨a, b⟩ hmem
      rw [mem_neighborList w h x y a b hx hy] at hmem
      obtain ⟨ha, hb, h3, h4, h5, h6⟩ := hmem
      simp only [decide_eq_true_eq, not_not]
      exact hiso x y hx hy h0 a b ha hb h3 h4 h5 h6
    simp only [inpaintProcess, inpaintPixel]
    rw [if_pos (⟨hx, hy⟩ : x < w ∧ y < h), if_pos h0, if_neg, h0]
    rw [hempty]
    simp
  · simp only [inpaintProcess, inpaintPixel]
    rw [if_pos (⟨hx, hy⟩ : x < w ∧ y < h), if_neg h0]

/-- C8 witness: the 1×1 all-zero image has no zero texel with a non-zero
neighbor, and one pass leaves its texel unchanged. -/
theorem c8_inpaint_idempotent_witness :
    (0 : ℕ) < 1 ∧ inpaintProcess exZeroImg 1 1 0 0 = exZeroImg 0 0 :=
  ⟨Nat.zero_lt_one,
    c8_inpaint_idempotent 1 exZeroImg 1 1
      (fun _ _ _ _ _ _ _ _ _ _ _ _ _ => rfl) 0 0 Nat.zero_lt_one
      Nat.zero_lt_one⟩

/-- C3: a configured elevation-mode name outside the registry makes
configuration application throw, and so does a shape-mode name outside the
registry that is not "random"; every registry name selects the evaluator at
its own registry position without throwing, and "random" selects the drawn
index without throwing.  An error in either selection aborts
`terrainApplyConfig`, which runs before any density sampling. -/
theorem c3_mode_selection :
    (∀ n : String, n ∉ elevationModeNames →
      chooseElevationFunction n = .error "unknown elevation mode configuration") ∧
    (∀ n : String, n ∈ elevationModeNames →
      ∃ i : ℕ, elevationModeNames.getD i "" = n ∧
        chooseElevationFunction n = .ok i) ∧
    (∀ (n : String) (r : Fin shapeModeNames.length), n ≠ "random" →
      n ∉ shapeModeNames →
      chooseShapeFunction n r = .error "unknown shape mode configuration") ∧
    (∀ (n : String) (r : Fin shapeModeNames.length), n ≠ "random" →
      n ∈ shapeModeNames →
      ∃ i : ℕ, shapeModeNames.getD i "" = n ∧
        chooseShapeFunction n r = .ok i) ∧
    (∀ r : Fin shapeModeNames.length,
      chooseShapeFunction "random" r = .ok r.val) ∧
    (∀ (sn en : String) (r : Fin shapeModeNames.length),
      (sn ≠ "random" ∧ sn ∉ shapeModeNames) ∨ en ∉ elevationModeNames →
      ∃ e : String, terrainApplyConfig sn en r = .error e) := by
  have helev_err : ∀ n : String, n ∉ elevationModeNames →
      chooseElevationFunction n = .error "unknown elevation mode configuration" := by
    intro n hn
    unfold chooseElevationFunction
    rw [selectMode_not_mem elevationModeNames n hn]
  have helev_ok : ∀ n : String, n ∈ elevationModeNames →
      ∃ i : ℕ, elevationModeNames.getD i "" = n ∧
        chooseElevationFunction n = .ok i := by
    intro n hn
    fin_cases hn
    · exact ⟨0, rfl, rfl⟩
    · exact ⟨1, rfl, rfl⟩
    · exact ⟨2, rfl, rfl⟩
    · exact ⟨3, rfl, rfl⟩
    · exact ⟨4, rfl, rfl⟩
  have hshape_err : ∀ (n : String) (r : Fin shapeModeNames.length),
      n ≠ "random" → n ∉ shapeModeNames →
      chooseShapeFunction n r = .error "unknown shape mode configuration" := by
    intro n r hrand hn
    unfold chooseShapeFunction
    rw [if_neg hrand, selectMode_not_mem shapeModeNames n hn]
  have hshape_ok : ∀ (n : String) (r : Fin shapeModeNames.length),
      n ≠ "random" → n ∈ shapeModeNames →
      ∃ i : ℕ, shapeModeNames.getD i "" = n ∧
        chooseShapeFunction n r = .ok i := by
    intro n r hrand hn
    unfold chooseShapeFunction
    rw [if_neg hrand]
    fin_cases hn
    · exact ⟨0, rfl, rfl⟩
    · exact ⟨1, rfl, rfl⟩
    · exact ⟨2, rfl, rfl⟩
    · exact ⟨3, rfl, rfl⟩
    · exact ⟨4, rfl, rfl⟩
    · exact ⟨5, rfl, rfl⟩
    · exact ⟨6, rfl, rfl⟩
    · exact ⟨7, rfl, rfl⟩
    · exact ⟨8, rfl, rfl⟩
    · exact ⟨9, rfl, rfl⟩
    · exact ⟨10, rfl, rfl⟩
    · exact ⟨11, rfl, rfl⟩
    · exact ⟨12, rfl, rfl⟩
    · exact ⟨13, rfl, rfl⟩
    · exact ⟨14, rfl, rfl⟩
    · exact ⟨15, rfl, rfl⟩
    · exact ⟨16, rfl, rfl⟩
    · exact ⟨17, rfl, rfl⟩
    · exact ⟨18, rfl, rfl⟩
  refine ⟨helev_err, helev_ok, hshape_err, hshape_ok, fun r => rfl, ?_⟩
  intro sn en r h
  rcases h with ⟨hrand, hsn⟩ | hen
  · refine ⟨"unknown shape mode configuration", ?_⟩
    unfold terrainApplyConfig
    rw [hshape_err sn r hrand hsn]
    rfl
  · by_cases hs : sn = "random"
    · refine ⟨"unknown elevation mode configuration", ?_⟩
      unfold terrainApplyConfig
      subst hs
      rw [show chooseShapeFunction "random" r = .ok r.val from rfl]
      show chooseElevationFunction en >>= _ = _
      rw [helev_err en hen]
      rfl
    · rcases hmem : selectMode shapeModeNames sn with _ | i
      · refine ⟨"unknown shape mode configuration", ?_⟩
        unfold terrainApplyConfig chooseShapeFunction
        rw [if_neg hs, hmem]
        rfl
      · refine ⟨"unknown elevation mode configuration", ?_⟩
        unfold terrainApplyConfig
        unfold chooseShapeFunction
        rw [if_neg hs, hmem]
        show chooseElevationFunction en >>= _ = _
        rw [helev_err en hen]
        rfl

/-- C3 witness: the unknown elevation name "foo" throws, the registry name
"none" selects index 0, the unknown shape name "bar" throws, the registry
name "sphere" selects index 2, "random" with draw 7 selects index 7, and
configuration application with an unknown shape name throws. -/
theorem c3_mode_selection_witness :
    ("foo" ∉ elevationModeNames ∧
      chooseElevationFunction "foo" =
        .error "unknown elevation mode configuration") ∧
    ("none" ∈ elevationModeNames ∧
      ∃ i : ℕ, elevationModeNames.getD i "" = "none" ∧
        chooseElevationFunction "none" = .ok i) ∧
    (("bar" : String) ≠ "random" ∧ "bar" ∉ shapeModeNames ∧
      chooseShapeFunction "bar" ⟨7, by decide⟩ =
        .error "unknown shape mode configuration") ∧
    (∃ i : ℕ, shapeModeNames.getD i "" = "sphere" ∧
      chooseShapeFunction "sphere" ⟨7, by decide⟩ = .ok i) ∧
    chooseShapeFunction "random" ⟨7, by decide⟩ = .ok 7 ∧
    (∃ e : String, terrainApplyConfig "bar" "none" ⟨7, by decide⟩ =
      .error e) := by
  refine ⟨⟨by decide, c3_mode_selection.1 "foo" (by decide)⟩,
    ⟨by decide, c3_mode_selection.2.1 "none" (by decide)⟩,
    ⟨by decide, by decide,
      c3_mode_selection.2.2.1 "bar" ⟨7, by decide⟩ (by decide) (by decide)⟩,
    c3_mode_selection.2.2.2.1 "sphere" ⟨7, by decide⟩ (by decide) (by decide),
    c3_mode_selection.2.2.2.2.1 ⟨7, by decide⟩,
    c3_mode_selection.2.2.2.2.2 "bar" "none" ⟨7, by decide⟩
      (Or.inl ⟨by decide, by decide⟩)⟩

/-- C4: surface generation throws "generated empty mesh" exactly when the
dual-contouring output has zero vertices or zero quads, and succeeds whenever
there is at least one vertex and at least one quad. -/
theorem c4_empty_mesh_fatal (nv nq : ℕ) :
    (nv = 0 ∨ nq = 0 → genSurface nv nq = .error "generated empty mesh") ∧
    (1 ≤ nv → 1 ≤ nq → genSurface nv nq = .ok ()) := by
  constructor
  · intro h
    unfold genSurface
    rw [if_pos h]
  · intro hv hq
    unfold genSurface
    rw [if_neg]
    push_neg
    omega

/-- C4 witness: zero quads with one vertex throws; one vertex and one quad
succeeds. -/
theorem c4_empty_mesh_fatal_witness :
    ((1 : ℕ) = 0 ∨ (0 : ℕ) = 0) ∧
    genSurface 1 0 = .error "generated empty mesh" ∧
    (1 ≤ 1 ∧ genSurface 1 1 = .ok ()) :=
  ⟨Or.inr rfl, (c4_empty_mesh_fatal 1 0).1 (Or.inr rfl),
    le_refl 1, (c4_empty_mesh_fatal 1 1).2 (le_refl 1) (le_refl 1)⟩

/-! ## Vector algebra helper lemmas -/

theorem vaddR_zeroR (v : Vec3r) : vaddR v zeroR = v := by
  unfold vaddR zeroR
  simp

theorem zeroR_vaddR (v : Vec3r) : vaddR zeroR v = v := by
  unfold vaddR zeroR
  simp

theorem vaddR_assoc (a b c : Vec3r) :
    vaddR (vaddR a b) c = vaddR a (vaddR b c) := by
  unfold vaddR
  simp [add_assoc]

theorem foldl_addNormal_count (n : Vec3r) (l : List ℕ) (f : ℕ → Vec3r)
    (v : ℕ) :
    (l.foldl (fun g i => addNormal n i g) f) v =
      vaddR (f v) (rsmul ((l.count v : ℕ) : ℝ) n) := by
  induction l generalizing f with
  | nil =>
      show f v = vaddR (f v) (rsmul (((List.nil.count v : ℕ)) : ℝ) n)
      unfold vaddR rsmul
      simp
  | cons i t ih =>
      rw [List.foldl_cons, ih]
      unfold addNormal
      by_cases hvi : v = i
      · subst hvi
        rw [if_pos rfl, List.count_cons, if_pos (by simp)]
        push_cast
        unfold vaddR rsmul
        simp only [Prod.mk.injEq]
        refine ⟨by ring, by ring, by ring⟩
      · have hne : ¬((i == v) = true) := by
          simp only [beq_iff_eq]
          exact Ne.symm hvi
        rw [if_neg hvi, List.count_cons, if_neg hne, Nat.add_zero]

theorem genAccumNormals_foldl (vs : List Vec3q) (qs : List Quad)
    (f : ℕ → Vec3r) (v : ℕ) :
    (qs.foldl
      (fun f q => (quadIndexList q).foldl
        (fun g i => addNormal (quadNormal vs q) i g) f) f) v =
      vaddR (f v) (vsumR (qs.map fun q =>
        rsmul (((quadIndexList q).count v : ℕ) : ℝ) (quadNormal vs q))) := by
  induction qs generalizing f with
  | nil =>
      show f v = vaddR (f v) (vsumR [])
      exact (vaddR_zeroR (f v)).symm
  | cons q t ih =>
      rw [List.foldl_cons, ih, foldl_addNormal_count]
      simp only [List.map_cons, vsumR, List.foldr_cons]
      rw [vaddR_assoc]

theorem genAccumNormals_eq (vs : List Vec3q) (qs : List Quad) (v : ℕ) :
    genAccumNormals vs qs v = quadNormalSum vs qs v := by
  unfold genAccumNormals quadNormalSum
  rw [genAccumNormals_foldl]
  exact zeroR_vaddR _

/-! ## Distance helper lemmas -/

theorem dsq_cast_nonneg (a b : Vec3q) :
    (0 : ℝ) ≤ ((distanceSquared a b : ℚ) : ℝ) := by
  have h : (0 : ℚ) ≤ distanceSquared a b := by
    unfold distanceSquared
    positivity
  exact_mod_cast h

theorem dist3_lt_iff (a b c d : Vec3q) :
    dist3 a b < dist3 c d ↔
      distanceSquared a b < distanceSquared c d := by
  unfold dist3
  rw [Real.sqrt_lt_sqrt_iff (dsq_cast_nonneg a b)]
  exact_mod_cast Iff.rfl

theorem dsqR_rsmul (s : ℝ) (u w : Vec3r) :
    distanceSquaredR (rsmul s u) (rsmul s w) =
      s ^ 2 * distanceSquaredR u w := by
  obtain ⟨u1, u2, u3⟩ := u
  obtain ⟨w1, w2, w3⟩ := w
  show (s * u1 - s * w1) ^ 2 + (s * u2 - s * w2) ^ 2 +
      (s * u3 - s * w3) ^ 2 =
    s ^ 2 * ((u1 - w1) ^ 2 + (u2 - w2) ^ 2 + (u3 - w3) ^ 2)
  ring

theorem sqrt_dsqR_cast (a b : Vec3q) :
    Real.sqrt (distanceSquaredR (castR a) (castR b)) = dist3 a b := by
  unfold dist3
  congr 1
  obtain ⟨a1, a2, a3⟩ := a
  obtain ⟨b1, b2, b3⟩ := b
  show ((a1 : ℝ) - (b1 : ℝ)) ^ 2 + ((a2 : ℝ) - (b2 : ℝ)) ^ 2 +
      ((a3 : ℝ) - (b3 : ℝ)) ^ 2 =
    (((a1 - b1) ^ 2 + (a2 - b2) ^ 2 + (a3 - b3) ^ 2 : ℚ) : ℝ)
  push_cast
  ring

theorem distR_rsmul_cast (s : ℝ) (hs : 0 ≤ s) (a b : Vec3q) :
    distR (rsmul s (castR a)) (rsmul s (castR b)) = s * dist3 a b := by
  unfold distR
  rw [dsqR_rsmul, Real.sqrt_mul (sq_nonneg s), Real.sqrt_sq hs,
    sqrt_dsqR_cast]

theorem posR_map_rsmul (s : ℝ) (vs : List Vec3q) (i : ℕ) :
    posR (vs.map fun v => rsmul s (castR v)) i =
      rsmul s (castR (posQ vs i)) := by
  unfold posR posQ
  rcases Nat.lt_or_ge i vs.length with hi | hi
  · rw [List.getD_eq_getElem _ _ (by simpa using hi), List.getElem_map,
      List.getD_eq_getElem _ _ hi]
  · rw [List.getD_eq_default _ _ (by simpa using hi),
      List.getD_eq_default _ _ hi]
    show zeroR = rsmul s (castR default)
    rw [show (default : Vec3q) = ((0 : ℚ), (0 : ℚ), (0 : ℚ)) from rfl]
    unfold zeroR rsmul castR
    norm_num

/-! ## Theorems for the geometry claims -/

/-- C1: for every quad, if the diagonal between its vertices 0 and 2 is
strictly shorter than the diagonal between its vertices 1 and 3, the
triangulation step emits exactly the index stream of the two triangles
(0,1,2) and (0,2,3); otherwise it emits exactly that of (1,2,3) and
(1,3,0). -/
theorem c1_shorter_diagonal (vs : List Vec3q) (q : Quad) :
    (dist3 (posQ vs q.i0) (posQ vs q.i2) <
        dist3 (posQ vs q.i1) (posQ vs q.i3) →
      genQuadSplit vs q = [q.i0, q.i1, q.i2, q.i0, q.i2, q.i3]) ∧
    (¬ dist3 (posQ vs q.i0) (posQ vs q.i2) <
        dist3 (posQ vs q.i1) (posQ vs q.i3) →
      genQuadSplit vs q = [q.i1, q.i2, q.i3, q.i1, q.i3, q.i0]) := by
  constructor
  · intro h
    unfold genQuadSplit
    rw [if_pos ((dist3_lt_iff _ _ _ _).mp h)]
  · intro h
    unfold genQuadSplit
    rw [if_neg (fun hc => h ((dist3_lt_iff _ _ _ _).mpr hc))]

/-- C1 witness: on the concrete quad with diagonals of length √2 and √3 the
split emits the triangles (0,1,2) and (0,2,3). -/
theorem c1_shorter_diagonal_witness :
    dist3 (posQ exVs 0) (posQ exVs 2) < dist3 (posQ exVs 1) (posQ exVs 3) ∧
    genQuadSplit exVs ⟨0, 1, 2, 3⟩ = [0, 1, 2, 0, 2, 3] := by
  have hd : dist3 (posQ exVs 0) (posQ exVs 2) <
      dist3 (posQ exVs 1) (posQ exVs 3) := by
    rw [dist3_lt_iff]
    rw [show posQ exVs 0 = ((0 : ℚ), (0 : ℚ), (0 : ℚ)) from rfl,
      show posQ exVs 2 = ((1 : ℚ), (1 : ℚ), (0 : ℚ)) from rfl,
      show posQ exVs 1 = ((1 : ℚ), (0 : ℚ), (0 : ℚ)) from rfl,
      show posQ exVs 3 = ((0 : ℚ), (1 : ℚ), (1 : ℚ)) from rfl]
    norm_num [distanceSquared]
  exact ⟨hd, (c1_shorter_diagonal exVs ⟨0, 1, 2, 3⟩).1 hd⟩

/-- C9 amended: every quad contributes a single face normal
`normalize(cross(v1 - v0, v2 - v0))` computed from the quad's vertices
0, 1, 2 — whatever diagonal split is chosen — and every vertex's final
normal is the normalization of the sum over all quads of that quad normal
weighted by the number of occurrences of the vertex among the quad's four
indices (one contribution per occurrence, not per adjacent triangle). -/
theorem c9_quad_normal_accumulation (vs : List Vec3q) (qs : List Quad)
    (v : ℕ) :
    genAccumNormals vs qs v = quadNormalSum vs qs v ∧
    genVertexNormal vs qs v = normalizeR (quadNormalSum vs qs v) := by
  refine ⟨genAccumNormals_eq vs qs v, ?_⟩
  unfold genVertexNormal
  rw [genAccumNormals_eq]

/-- C9 counterexample: on the single non-planar quad mesh `exVs`/`exQs`,
vertex 3 is adjacent only to the emitted triangle (0,2,3), whose face normal
per the claim is `normalize((1,-1,1))`; the code instead assigns the quad
normal `(0,0,1)` computed from vertices 0, 1, 2, so the code's vertex
normal differs from the claim's formula. -/
theorem c9_counterexample :
    genVertexNormal exVs exQs 3 ≠ specVertexNormal exVs exQs 3 := by
  have hq : quadNormal exVs ⟨0, 1, 2, 3⟩ = ((0 : ℝ), (0 : ℝ), (1 : ℝ)) := by
    show normalizeQ (cross3 (vsubQ (posQ exVs 1) (posQ exVs 0))
      (vsubQ (posQ exVs 2) (posQ exVs 0))) = ((0 : ℝ), (0 : ℝ), (1 : ℝ))
    rw [show posQ exVs 0 = ((0 : ℚ), (0 : ℚ), (0 : ℚ)) from rfl,
      show posQ exVs 1 = ((1 : ℚ), (0 : ℚ), (0 : ℚ)) from rfl,
      show posQ exVs 2 = ((1 : ℚ), (1 : ℚ), (0 : ℚ)) from rfl]
    rw [show cross3 (vsubQ ((1 : ℚ), (0 : ℚ), (0 : ℚ))
          ((0 : ℚ), (0 : ℚ), (0 : ℚ)))
        (vsubQ ((1 : ℚ), (1 : ℚ), (0 : ℚ)) ((0 : ℚ), (0 : ℚ), (0 : ℚ))) =
        ((0 : ℚ), (0 : ℚ), (1 : ℚ)) from by
      norm_num [cross3, vsubQ, Prod.mk.injEq]]
    show rsmul (Real.sqrt
        (((0 : ℚ) ^ 2 + (0 : ℚ) ^ 2 + (1 : ℚ) ^ 2 : ℚ) : ℝ))⁻¹
      (((0 : ℚ) : ℝ), ((0 : ℚ) : ℝ), ((1 : ℚ) : ℝ)) =
      ((0 : ℝ), (0 : ℝ), (1 : ℝ))
    rw [show ((0 : ℚ) ^ 2 + (0 : ℚ) ^ 2 + (1 : ℚ) ^ 2 : ℚ) = 1 from by
      norm_num]
    rw [Rat.cast_one, Real.sqrt_one, inv_one]
    unfold rsmul
    norm_num
  have hacc : genAccumNormals exVs exQs 3 = ((0 : ℝ), (0 : ℝ), (1 : ℝ)) := by
    rw [genAccumNormals_eq]
    unfold quadNormalSum exQs
    rw [List.map_cons, List.map_nil, hq]
    rw [show ((quadIndexList ⟨0, 1, 2, 3⟩).count 3 : ℕ) = 1 from rfl]
    show vaddR (rsmul ((1 : ℕ) : ℝ) ((0 : ℝ), (0 : ℝ), (1 : ℝ))) zeroR = _
    rw [vaddR_zeroR]
    unfold rsmul
    norm_num
  have hL : genVertexNormal exVs exQs 3 = ((0 : ℝ), (0 : ℝ), (1 : ℝ)) := by
    unfold genVertexNormal
    rw [hacc]
    show rsmul (Real.sqrt
        ((0 : ℝ) ^ 2 + (0 : ℝ) ^ 2 + (1 : ℝ) ^ 2))⁻¹
      ((0 : ℝ), (0 : ℝ), (1 : ℝ)) = ((0 : ℝ), (0 : ℝ), (1 : ℝ))
    rw [show ((0 : ℝ) ^ 2 + (0 : ℝ) ^ 2 + (1 : ℝ) ^ 2 : ℝ) = 1 from by
      norm_num]
    rw [Real.sqrt_one, inv_one]
    unfold rsmul
    norm_num
  have hc : distanceSquared (posQ exVs 0) (posQ exVs 2) <
      distanceSquared (posQ exVs 1) (posQ exVs 3) := by
    rw [show posQ exVs 0 = ((0 : ℚ), (0 : ℚ), (0 : ℚ)) from rfl,
      show posQ exVs 2 = ((1 : ℚ), (1 : ℚ), (0 : ℚ)) from rfl,
      show posQ exVs 1 = ((1 : ℚ), (0 : ℚ), (0 : ℚ)) from rfl,
      show posQ exVs 3 = ((0 : ℚ), (1 : ℚ), (1 : ℚ)) from rfl]
    norm_num [distanceSquared]
  have hsplit : genQuadSplit exVs ⟨0, 1, 2, 3⟩ = [0, 1, 2, 0, 2, 3] := by
    show (if distanceSquared (posQ exVs 0) (posQ exVs 2) <
        distanceSquared (posQ exVs 1) (posQ exVs 3) then
        ([0, 1, 2, 0, 2, 3] : List ℕ) else [1, 2, 3, 1, 3, 0]) =
      [0, 1, 2, 0, 2, 3]
    rw [if_pos hc]
  have hidx : genTrianglesIndices exVs exQs = [0, 1, 2, 0, 2, 3] := by
    unfold genTrianglesIndices exQs
    rw [show ([⟨0, 1, 2, 3⟩] : List Quad).flatMap (genQuadSplit exVs) =
      genQuadSplit exVs ⟨0, 1, 2, 3⟩ ++ [] from rfl]
    rw [hsplit]
    rfl
  have htris : (triangleList (genTrianglesIndices exVs exQs)).filter
      (fun t => decide (3 = t.1 ∨ 3 = t.2.1 ∨ 3 = t.2.2)) =
      [((0 : ℕ), (2 : ℕ), (3 : ℕ))] := by
    rw [hidx]
    rfl
  have hc2 : cross3 (vsubQ (posQ exVs 2) (posQ exVs 0))
      (vsubQ (posQ exVs 3) (posQ exVs 0)) =
      ((1 : ℚ), (-1 : ℚ), (1 : ℚ)) := by
    rw [show posQ exVs 0 = ((0 : ℚ), (0 : ℚ), (0 : ℚ)) from rfl,
      show posQ exVs 2 = ((1 : ℚ), (1 : ℚ), (0 : ℚ)) from rfl,
      show posQ exVs 3 = ((0 : ℚ), (1 : ℚ), (1 : ℚ)) from rfl]
    norm_num [cross3, vsubQ, Prod.mk.injEq]
  have hnq2 : normalizeQ ((1 : ℚ), (-1 : ℚ), (1 : ℚ)) =
      ((Real.sqrt 3)⁻¹, -(Real.sqrt 3)⁻¹, (Real.sqrt 3)⁻¹) := by
    show rsmul (Real.sqrt
        (((1 : ℚ) ^ 2 + (-1 : ℚ) ^ 2 + (1 : ℚ) ^ 2 : ℚ) : ℝ))⁻¹
      (((1 : ℚ) : ℝ), ((-1 : ℚ) : ℝ), ((1 : ℚ) : ℝ)) = _
    rw [show ((1 : ℚ) ^ 2 + (-1 : ℚ) ^ 2 + (1 : ℚ) ^ 2 : ℚ) = 3 from by
      norm_num]
    unfold rsmul
    norm_num [Prod.mk.injEq]
  have hface : specFaceNormal exVs ((0 : ℕ), (2 : ℕ), (3 : ℕ)) =
      ((Real.sqrt 3)⁻¹, -(Real.sqrt 3)⁻¹, (Real.sqrt 3)⁻¹) := by
    show normalizeQ (cross3 (vsubQ (posQ exVs 2) (posQ exVs 0))
      (vsubQ (posQ exVs 3) (posQ exVs 0))) = _
    rw [hc2, hnq2]
  have hRval : specVertexNormal exVs exQs 3 =
      ((Real.sqrt 3)⁻¹, -(Real.sqrt 3)⁻¹, (Real.sqrt 3)⁻¹) := by
    unfold specVertexNormal
    rw [htris, List.map_cons, List.map_nil, hface]
    rw [show vsumR [((Real.sqrt 3)⁻¹, -(Real.sqrt 3)⁻¹, (Real.sqrt 3)⁻¹)] =
      vaddR ((Real.sqrt 3)⁻¹, -(Real.sqrt 3)⁻¹, (Real.sqrt 3)⁻¹) zeroR
      from rfl]
    rw [vaddR_zeroR]
    have hsq : ((Real.sqrt 3)⁻¹) ^ 2 + (-(Real.sqrt 3)⁻¹) ^ 2 +
        ((Real.sqrt 3)⁻¹) ^ 2 = 1 := by
      have h3 : Real.sqrt 3 ^ 2 = 3 := Real.sq_sqrt (by norm_num)
      rw [neg_sq]
      rw [inv_pow, h3]
      norm_num
    show rsmul (Real.sqrt (((Real.sqrt 3)⁻¹) ^ 2 + (-(Real.sqrt 3)⁻¹) ^ 2 +
        ((Real.sqrt 3)⁻¹) ^ 2))⁻¹
      ((Real.sqrt 3)⁻¹, -(Real.sqrt 3)⁻¹, (Real.sqrt 3)⁻¹) = _
    rw [hsq, Real.sqrt_one, inv_one]
    unfold rsmul
    norm_num
  intro heq
  rw [hL, hRval] at heq
  have h1 : (0 : ℝ) = (Real.sqrt 3)⁻¹ := congrArg Prod.fst heq
  have hpos : 0 < (Real.sqrt 3)⁻¹ :=
    inv_pos.mpr (Real.sqrt_pos.mpr (by norm_num))
  rw [← h1] at hpos
  exact lt_irrefl 0 hpos

/-- C5: for every mesh with positive total edge length, the scale factor is
the reciprocal of the mean edge length over all triangle edges (three per
triangle), the rescaling multiplies every vertex position by it, and the
rescaled mesh's mean edge length equals 1. -/
theorem c5_scale_normalization (m : Mesh) (hpos : 0 < totalEdgeLen m) :
    planetScale m = (meanEdgeLen m)⁻¹ ∧
    (computeScale m).vertices =
      m.vertices.map (fun v => rsmul (planetScale m) (castR v)) ∧
    meanEdgeLenR (computeScale m) = 1 := by
  have htc : triangleCount m ≠ 0 := by
    intro h
    have hz : totalEdgeLen m = 0 := by
      unfold totalEdgeLen
      rw [h]
      simp
    rw [hz] at hpos
    exact lt_irrefl 0 hpos
  have htot : totalEdgeLen m ≠ 0 := ne_of_gt hpos
  have hs0 : 0 ≤ planetScale m := by
    unfold planetScale
    positivity
  refine ⟨?_, rfl, ?_⟩
  · unfold planetScale meanEdgeLen
    rw [inv_div]
  · have hcnt : triangleCountR (computeScale m) = triangleCount m := rfl
    have hedge : ∀ t e, edgeLenR (computeScale m) t e =
        planetScale m * edgeLen m t e := by
      intro t e
      show distR
          (posR (m.vertices.map fun v => rsmul (planetScale m) (castR v))
            (m.indices.getD (t * 3 + e) 0))
          (posR (m.vertices.map fun v => rsmul (planetScale m) (castR v))
            (m.indices.getD (t * 3 + (e + 1) % 3) 0)) =
        planetScale m * edgeLen m t e
      rw [posR_map_rsmul, posR_map_rsmul, distR_rsmul_cast _ hs0]
      rfl
    have htotR : totalEdgeLenR (computeScale m) =
        planetScale m * totalEdgeLen m := by
      unfold totalEdgeLenR totalEdgeLen
      rw [hcnt, Finset.mul_sum]
      apply Finset.sum_congr rfl
      intro t _
      rw [Finset.mul_sum]
      apply Finset.sum_congr rfl
      intro e _
      exact hedge t e
    unfold meanEdgeLenR
    rw [htotR, hcnt]
    unfold planetScale
    have hc3 : ((triangleCount m : ℝ) * 3) ≠ 0 := by
      have : (triangleCount m : ℝ) ≠ 0 := Nat.cast_ne_zero.mpr htc
      positivity
    field_simp

/-- C5 witness: the concrete degenerate mesh `exMesh` has total edge length
4 > 0, its scale is the reciprocal of its mean edge length 4/3, and after
rescaling its mean edge length is exactly 1. -/
theorem c5_scale_normalization_witness :
    0 < totalEdgeLen exMesh ∧
    (planetScale exMesh = (meanEdgeLen exMesh)⁻¹ ∧
      (computeScale exMesh).vertices =
        exMesh.vertices.map
          (fun v => rsmul (planetScale exMesh) (castR v)) ∧
      meanEdgeLenR (computeScale exMesh) = 1) := by
  have e0 : edgeLen exMesh 0 0 = 2 := by
    show dist3 (posQ exMesh.vertices (exMesh.indices.getD 0 0))
      (posQ exMesh.vertices (exMesh.indices.getD 1 0)) = 2
    rw [show posQ exMesh.vertices (exMesh.indices.getD 0 0) =
        ((0 : ℚ), (0 : ℚ), (0 : ℚ)) from rfl,
      show posQ exMesh.vertices (exMesh.indices.getD 1 0) =
        ((2 : ℚ), (0 : ℚ), (0 : ℚ)) from rfl]
    unfold dist3
    rw [show distanceSquared ((0 : ℚ), (0 : ℚ), (0 : ℚ))
        ((2 : ℚ), (0 : ℚ), (0 : ℚ)) = 4 from by norm_num [distanceSquared]]
    rw [show (((4 : ℚ)) : ℝ) = 2 ^ 2 from by norm_num]
    exact Real.sqrt_sq (by norm_num)
  have e1 : edgeLen exMesh 0 1 = 0 := by
    show dist3 (posQ exMesh.vertices (exMesh.indices.getD 1 0))
      (posQ exMesh.vertices (exMesh.indices.getD 2 0)) = 0
    rw [show posQ exMesh.vertices (exMesh.indices.getD 1 0) =
        ((2 : ℚ), (0 : ℚ), (0 : ℚ)) from rfl,
      show posQ exMesh.vertices (exMesh.indices.getD 2 0) =
        ((2 : ℚ), (0 : ℚ), (0 : ℚ)) from rfl]
    unfold dist3
    rw [show distanceSquared ((2 : ℚ), (0 : ℚ), (0 : ℚ))
        ((2 : ℚ), (0 : ℚ), (0 : ℚ)) = 0 from by norm_num [distanceSquared]]
    rw [Rat.cast_zero]
    exact Real.sqrt_zero
  have e2 : edgeLen exMesh 0 2 = 2 := by
    show dist3 (posQ exMesh.vertices (exMesh.indices.getD 2 0))
      (posQ exMesh.vertices (exMesh.indices.getD 0 0)) = 2
    rw [show posQ exMesh.vertices (exMesh.indices.getD 2 0) =
        ((2 : ℚ), (0 : ℚ), (0 : ℚ)) from rfl,
      show posQ exMesh.vertices (exMesh.indices.getD 0 0) =
        ((0 : ℚ), (0 : ℚ), (0 : ℚ)) from rfl]
    unfold dist3
    rw [show distanceSquared ((2 : ℚ), (0 : ℚ), (0 : ℚ))
        ((0 : ℚ), (0 : ℚ), (0 : ℚ)) = 4 from by norm_num [distanceSquared]]
    rw [show (((4 : ℚ)) : ℝ) = 2 ^ 2 from by norm_num]
    exact Real.sqrt_sq (by norm_num)
  have h4 : totalEdgeLen exMesh = 4 := by
    unfold totalEdgeLen
    rw [show triangleCount exMesh = 1 from rfl]
    rw [Finset.sum_range_one]
    rw [show (3 : ℕ) = 2 + 1 from rfl, Finset.sum_range_succ]
    rw [Finset.sum_range_succ, Finset.sum_range_one]
    rw [e0, e1, e2]
    norm_num
  have hpos : 0 < totalEdgeLen exMesh := by
    rw [h4]
    norm_num
  exact ⟨hpos, c5_scale_normalization exMesh hpos⟩

end Planets
